import Mathlib

/-!
Verification of the market-state-detector core: a shallow embedding of the
three signal detectors (volatility spike, price gap, wide range), the
configuration merge layer, the detection orchestrator and the market-context
classifier, together with theorems settling the specification claims.

Modelling conventions:
* Python floats are modelled as rationals; the single use of `math.sqrt`
  (historical volatility) is modelled with `Real.sqrt`.
* A Python function that can raise becomes `Except Err _`; each distinct
  raise site is mapped to an `Err` constructor mirroring the error taxonomy
  (`ValueError` messages about data size become `insufficientData`, messages
  about price validity become `invalidPrice`, `KeyError` from configuration
  access becomes `missingConfigKey`, `TypeError`-like failures become
  `typeError`, Python's `ZeroDivisionError` becomes `zeroDivision`, and the
  list-length mismatch checks become `lengthMismatch`).
* Python lists indexed from the end (`xs[-1]`, `xs[-2]`) are modelled with
  `List.getLast?`/`List.dropLast`, with a default of `0` on paths that the
  source guards against reaching.
-/

/-- Error taxonomy for the detector core. -/
inductive Err where
  | insufficientData
  | invalidPrice
  | missingConfigKey
  | typeError
  | zeroDivision
  | lengthMismatch
deriving DecidableEq, Repr

deriving instance DecidableEq for Except

/-- First-match association-list lookup (Python `dict` access on the ordered
signal map). -/
def lookupKey {α : Type} (n : String) : List (String × α) → Option α
  | [] => none
  | (k, v) :: rest => if k = n then some v else lookupKey n rest

/-- The last `n` elements of a list (a Python slice `xs[-n:]`, clamped at the
front exactly as Python clamps negative start indices). -/
def lastN {α : Type} (n : ℕ) (l : List α) : List α :=
  l.drop (l.length - n)

/-! Embedding: volatility.py -/

/-- Loop body of `calculate_daily_returns`: walks the price list keeping the
previous price, raising `ValueError("Prices must be positive")` at the first
non-positive pair and otherwise emitting `(p[i] - p[i-1]) / p[i-1]`. -/
def returnsLoop : ℚ → List ℚ → Except Err (List ℚ)
  | _, [] => .ok []
  | prev, p :: rest =>
    if prev ≤ 0 ∨ p ≤ 0 then .error .invalidPrice
    else
      match returnsLoop p rest with
      | .error e => .error e
      | .ok rs => .ok ((p - prev) / prev :: rs)

/-- Source `calculate_daily_returns(prices)`: requires at least 2 prices, then the
period-over-period simple returns. -/
def calculate_daily_returns (prices : List ℚ) : Except Err (List ℚ) :=
  match prices with
  | [] => .error .insufficientData
  | [_] => .error .insufficientData
  | p :: rest => returnsLoop p rest

/-- Source `calculate_volatility(returns)`: population standard deviation of the
returns (mean and variance divide by `n`, not `n - 1`); raises on an empty
list. -/
noncomputable def calculate_volatility (returns : List ℚ) : Except Err ℝ :=
  if returns = [] then .error .insufficientData
  else
    let n : ℚ := returns.length
    let mean := returns.sum / n
    let variance := (returns.map (fun r => (r - mean) ^ 2)).sum / n
    .ok (Real.sqrt (variance : ℝ))

/-- Detail record returned by `detect_volatility_spike`. -/
structure VolDetails where
  recent_return : ℚ
  historical_volatility : ℝ
  threshold : ℝ
  spike_magnitude : ℝ

/-- Source `detect_volatility_spike(prices, threshold_multiplier, lookback_period)`.
The historical window is the slice `returns[-(lookback_period+1):-1]`
(modelled with `drop`/`dropLast`; natural-number subtraction clamps the start
index exactly as Python does). -/
noncomputable def detect_volatility_spike (prices : List ℚ)
    (threshold_multiplier : ℚ) (lookback_period : ℕ) :
    Except Err (Bool × VolDetails) :=
  if prices.length < lookback_period + 1 then .error .insufficientData
  else
    match calculate_daily_returns prices with
    | .error e => .error e
    | .ok returns =>
      let historical_returns :=
        (returns.drop (returns.length - (lookback_period + 1))).dropLast
      let recent_return := returns.getLast?.getD 0
      match calculate_volatility historical_returns with
      | .error e => .error e
      | .ok hist_vol =>
        let threshold : ℝ := hist_vol * threshold_multiplier
        let spike_detected : Bool := decide (|(recent_return : ℝ)| > threshold)
        .ok (spike_detected,
          { recent_return := recent_return
            historical_volatility := hist_vol
            threshold := threshold
            spike_magnitude :=
              if threshold > 0 then |(recent_return : ℝ)| / threshold else 0 })

/-! Embedding: gaps.py -/

/-- Detail record returned by `detect_gap`. -/
structure GapDetails where
  gap_percent : ℚ
  gap_direction : String
  absolute_gap : ℚ
deriving DecidableEq, Repr

/-- Source `detect_gap(previous_close, current_open, threshold_percent)`. -/
def detect_gap (previous_close current_open : ℚ) (threshold_percent : ℚ) :
    Except Err (Bool × GapDetails) :=
  if previous_close ≤ 0 ∨ current_open ≤ 0 then .error .invalidPrice
  else
    let gap_absolute := current_open - previous_close
    let gap_percent := gap_absolute / previous_close * 100
    let gap_detected : Bool := decide (|gap_percent| ≥ threshold_percent)
    let gap_direction := if gap_percent > 0 then "up" else "down"
    .ok (gap_detected,
      { gap_percent := gap_percent
        gap_direction := gap_direction
        absolute_gap := gap_absolute })

/-- Source `detect_gap_from_prices(closes, opens, threshold_percent)`: the gap
between the second-to-last close and the last open. -/
def detect_gap_from_prices (closes opens : List ℚ) (threshold_percent : ℚ) :
    Except Err (Bool × GapDetails) :=
  if closes.length < 2 ∨ opens.length < 1 then .error .insufficientData
  else if opens.length ≠ closes.length then .error .lengthMismatch
  else
    let previous_close := closes.dropLast.getLast?.getD 0
    let current_open := opens.getLast?.getD 0
    detect_gap previous_close current_open threshold_percent

/-! Embedding: ranges.py -/

/-- Source `calculate_range_percent(high, low, close)`: `(high - low) / close * 100`
with price validation. -/
def calculate_range_percent (high low close : ℚ) : Except Err ℚ :=
  if high ≤ 0 ∨ low ≤ 0 ∨ close ≤ 0 then .error .invalidPrice
  else if high < low then .error .invalidPrice
  else .ok ((high - low) / close * 100)

/-- Loop of `calculate_average_range`: per-day range percentages over three
parallel lists, raising at the first invalid day. -/
def rangeListLoop : List ℚ → List ℚ → List ℚ → Except Err (List ℚ)
  | h :: hs, l :: ls, c :: cs =>
    match calculate_range_percent h l c with
    | .error e => .error e
    | .ok r =>
      match rangeListLoop hs ls cs with
      | .error e => .error e
      | .ok rs => .ok (r :: rs)
  | _, _, _ => .ok []

/-- Source `calculate_average_range(highs, lows, closes, period)`: mean per-day range
over the last `period` days.  Python computes `sum(ranges)/len(ranges)`, which
raises `ZeroDivisionError` when `period == 0`; the explicit guard models this. -/
def calculate_average_range (highs lows closes : List ℚ) (period : ℕ) :
    Except Err ℚ :=
  if highs.length ≠ lows.length ∨ highs.length ≠ closes.length then
    .error .lengthMismatch
  else if highs.length < period then .error .insufficientData
  else
    match rangeListLoop (lastN period highs) (lastN period lows)
        (lastN period closes) with
    | .error e => .error e
    | .ok ranges =>
      if ranges.length = 0 then .error .zeroDivision
      else .ok (ranges.sum / (ranges.length : ℚ))

/-- Detail record returned by `detect_wide_range`. -/
structure RangeDetails where
  current_range : ℚ
  average_range : ℚ
  threshold : ℚ
  range_expansion : ℚ
deriving DecidableEq, Repr

/-- Source `detect_wide_range(highs, lows, closes, threshold_percent,
lookback_period)`.  The current day's range is compared against the mean range
of the `lookback_period` days preceding it (`highs[:-1]` etc. = `dropLast`). -/
def detect_wide_range (highs lows closes : List ℚ) (threshold_percent : ℚ)
    (lookback_period : ℕ) : Except Err (Bool × RangeDetails) :=
  if highs.length < lookback_period + 1 then .error .insufficientData
  else
    match calculate_range_percent (highs.getLast?.getD 0) (lows.getLast?.getD 0)
        (closes.getLast?.getD 0) with
    | .error e => .error e
    | .ok current_range =>
      match calculate_average_range highs.dropLast lows.dropLast closes.dropLast
          lookback_period with
      | .error e => .error e
      | .ok avg_range =>
        let threshold := avg_range * (1 + threshold_percent / 100)
        let wide_range_detected : Bool := decide (current_range > threshold)
        .ok (wide_range_detected,
          { current_range := current_range
            average_range := avg_range
            threshold := threshold
            range_expansion :=
              if threshold > 0 then (current_range / threshold - 1) * 100
              else 0 })

/-! Embedding: config.py

A Python `dict` is modelled as a function to `Option` (finite support is not
needed for the claims).  The top-level override supplied to `_merge_config`
keeps its iteration order (`user_config.items()`), so it stays a list of
section/value pairs; section contents are key-to-value maps.  A section value
is either a key/value mapping or a scalar (the `isinstance(values, dict)`
distinction in `_merge_config`). -/

/-- A string-keyed mapping. -/
def Dict (α : Type) : Type := String → Option α

/-- Build a `Dict` from an association list (first binding wins, matching a
Python dict literal with distinct keys). -/
def table {α : Type} (l : List (String × α)) : Dict α :=
  fun s => (l.find? (fun p => p.1 = s)).map (·.2)

/-- The empty mapping. -/
def emptyDict {α : Type} : Dict α := fun _ => none

/-- A configuration section value: a key/value mapping or a scalar. -/
inductive SectVal where
  | dict (d : Dict ℚ)
  | scalar (q : ℚ)

/-- A configuration: section name to section value. -/
def Sections : Type := Dict SectVal

/-- Set one section of a configuration. -/
def updateKey (c : Sections) (sec : String) (v : SectVal) : Sections :=
  fun s => if s = sec then some v else c s

/-- Source `existing.update(incoming)` on two mappings: keys of `incoming` win,
other keys of `existing` are preserved. -/
def dictOverlay (existing incoming : Dict ℚ) : Dict ℚ :=
  fun k =>
    match incoming k with
    | some x => some x
    | none => existing k

/-- One iteration of the `_merge_config` loop: if the section already exists
and the incoming value is a mapping, overlay key-by-key; if the existing value
is a scalar and the incoming value a mapping, Python's `.update` call raises
(`AttributeError`, modelled as `typeError`); otherwise the section is replaced
wholesale. -/
def applyOne (c : Sections) (sec : String) (v : SectVal) : Except Err Sections :=
  match c sec, v with
  | some (.dict existing), .dict incoming =>
    .ok (updateKey c sec (.dict (dictOverlay existing incoming)))
  | some (.scalar _), .dict _ => .error .typeError
  | _, _ => .ok (updateKey c sec v)

/-- Source `Config._merge_config(user_config)`: fold the override entries over the
configuration in iteration order. -/
def mergeConfig (c : Sections) : List (String × SectVal) → Except Err Sections
  | [] => .ok c
  | (sec, v) :: rest =>
    match applyOne c sec v with
    | .error e => .error e
    | .ok c' => mergeConfig c' rest

/-- Source `Config.DEFAULT_CONFIG`. -/
def DEFAULT_CONFIG : Sections :=
  table [
    ("volatility", .dict (table [("threshold_multiplier", 2), ("lookback_period", 15)])),
    ("gaps", .dict (table [("threshold_percent", 2)])),
    ("ranges", .dict (table [("threshold_percent", 50), ("lookback_period", 15)])),
    ("general", .dict (table [("min_data_points", 16)]))]

namespace Config

/-- Source `Config.get(section, key)`: `self.config[section][key]`; raises `KeyError`
(`missingConfigKey`) when the section or the key is absent, and a
`TypeError`-like failure when the section value is not a mapping. -/
def get (c : Sections) (sec key : String) : Except Err ℚ :=
  match c sec with
  | none => .error .missingConfigKey
  | some (.scalar _) => .error .typeError
  | some (.dict d) =>
    match d key with
    | none => .error .missingConfigKey
    | some v => .ok v

/-- Source `Config.get_section(section)`: `self.config.get(section, {})` — total,
returning the empty mapping when the section is absent. -/
def get_section (c : Sections) (sec : String) : SectVal :=
  (c sec).getD (.dict emptyDict)

end Config

/-- Subscript access `sect["key"]` on a section value as the orchestrator
performs it inside its `try` blocks: `KeyError` when the key is absent,
`TypeError` when the section value is not a mapping. -/
def sectGet (v : SectVal) (key : String) : Except Err ℚ :=
  match v with
  | .scalar _ => .error .typeError
  | .dict d =>
    match d key with
    | none => .error .missingConfigKey
    | some x => .ok x

/-! Embedding: market_context.py -/

/-- The `MarketContext` dataclass. -/
structure MarketContext where
  context_type : String
  benchmarks_affected : List String
  correlation_score : ℚ
  description : String

/-- Python truthiness of a benchmark's flag entry (`if signals`): `None` and
the empty list are falsy. -/
def truthy : Option (List String) → Bool
  | none => false
  | some l => !l.isEmpty

/-- The benchmarks whose flag entry is truthy, in mapping order
(`affected_benchmarks` in `analyze_context`). -/
def affectedBenchmarks (benchmark_signals : List (String × Option (List String))) :
    List String :=
  (benchmark_signals.filter (fun p => truthy p.2)).map Prod.fst

/-- The count of benchmarks whose flag entry `is not None`
(`total_benchmarks` in `analyze_context`). -/
def totalBenchmarks (benchmark_signals : List (String × Option (List String))) : ℕ :=
  (benchmark_signals.filter (fun p => p.2.isSome)).length

/-- Source `MarketContextAnalyzer.analyze_context(symbol, stock_signals,
benchmark_signals)`.  Benchmark flag entries are `Option` lists because the
code guards `is not None`. -/
def analyze_context (symbol : String) (stock_signals : List String)
    (benchmark_signals : List (String × Option (List String))) : MarketContext :=
  if stock_signals.isEmpty then
    { context_type := "normal"
      benchmarks_affected := []
      correlation_score := 0
      description := "No uncertainty signals detected" }
  else
    let affected := affectedBenchmarks benchmark_signals
    let num_affected := affected.length
    let total := totalBenchmarks benchmark_signals
    let score : ℚ := if total > 0 then (num_affected : ℚ) / (total : ℚ) else 0
    if num_affected = 0 then
      { context_type := "stock_specific"
        benchmarks_affected := affected
        correlation_score := score
        description := symbol ++ " volatility appears stock-specific (no benchmark correlation)" }
    else if num_affected ≥ 2 then
      { context_type := "broad_market"
        benchmarks_affected := affected
        correlation_score := score
        description := "Broad market volatility detected (" ++
          String.intercalate ", " affected ++ " affected)" }
    else
      let bench := affected.head?.getD ""
      if bench = "QQQ" then
        { context_type := "sector"
          benchmarks_affected := affected
          correlation_score := score
          description := "Tech sector volatility detected (QQQ affected, others stable)" }
      else if bench = "DIA" then
        { context_type := "sector"
          benchmarks_affected := affected
          correlation_score := score
          description := "Blue-chip sector volatility (DIA affected, others stable)" }
      else
        { context_type := "sector"
          benchmarks_affected := affected
          correlation_score := score
          description := "Sector-specific volatility (only " ++ bench ++ " affected)" }

/-! Embedding: detector.py -/

/-- Per-detector detail payload stored in a signal entry. -/
inductive SigDetails where
  | vol (d : VolDetails)
  | gap (d : GapDetails)
  | range (d : RangeDetails)

/-- One entry of the `signals` mapping: `detected`, optional `details`,
optional `error` message (the orchestrator records exactly one of the two). -/
structure SignalResult where
  detected : Bool
  details : Option SigDetails
  error : Option Err

/-- The dictionary returned by `MarketStateDetector.analyze`. -/
structure AnalysisResult where
  stage_1_detected : Bool
  signals : List (String × SignalResult)
  flags : List String
  summary : String

/-- The volatility block of `analyze`: read the `volatility` section inside
the `try` and run the detector.  A fractional configured lookback is used as
its floor (Python would raise on a non-integer slice index; the claims only
exercise integer values). -/
noncomputable def runVolatility (cfg : Sections) (closes : List ℚ) :
    Except Err (Bool × VolDetails) := do
  let sect := Config.get_section cfg "volatility"
  let m ← sectGet sect "threshold_multiplier"
  let lookback ← sectGet sect "lookback_period"
  detect_volatility_spike closes m (Int.toNat ⌊lookback⌋)

/-- The gap block of `analyze` (inside its `try`). -/
def runGap (cfg : Sections) (closes opens : List ℚ) :
    Except Err (Bool × GapDetails) := do
  let sect := Config.get_section cfg "gaps"
  let tp ← sectGet sect "threshold_percent"
  detect_gap_from_prices closes opens tp

/-- The wide-range block of `analyze` (inside its `try`). -/
def runRange (cfg : Sections) (highs lows closes : List ℚ) :
    Except Err (Bool × RangeDetails) := do
  let sect := Config.get_section cfg "ranges"
  let tp ← sectGet sect "threshold_percent"
  let lookback ← sectGet sect "lookback_period"
  detect_wide_range highs lows closes tp (Int.toNat ⌊lookback⌋)

/-- Signal entry and flag contribution of the volatility block: always runs;
an exception is recorded as `detected: false` with the error under the
`"volatility_spike"` key. -/
noncomputable def volPart (cfg : Sections) (closes : List ℚ) :
    List (String × SignalResult) × List String :=
  match runVolatility cfg closes with
  | .ok bd =>
    ([("volatility_spike", ⟨bd.1, some (.vol bd.2), none⟩)],
      if bd.1 then ["volatility_spike"] else [])
  | .error e => ([("volatility_spike", ⟨false, none, some e⟩)], [])

/-- Signal entry and flag contribution of the gap block: runs only when an
open series is supplied with length equal to the close series; otherwise the
`"price_gap"` key is entirely absent. -/
def gapPart (cfg : Sections) (closes : List ℚ) (opens : Option (List ℚ)) :
    List (String × SignalResult) × List String :=
  match opens with
  | some os =>
    if os.length = closes.length then
      match runGap cfg closes os with
      | .ok bd =>
        ([("price_gap", ⟨bd.1, some (.gap bd.2), none⟩)],
          if bd.1 then ["price_gap"] else [])
      | .error e => ([("price_gap", ⟨false, none, some e⟩)], [])
    else ([], [])
  | none => ([], [])

/-- Signal entry and flag contribution of the wide-range block: runs only when
both high and low series are supplied with lengths equal to the close series;
otherwise the `"wide_range"` key is entirely absent. -/
def rangePart (cfg : Sections) (closes : List ℚ)
    (highs lows : Option (List ℚ)) :
    List (String × SignalResult) × List String :=
  match highs, lows with
  | some hs, some ls =>
    if hs.length = closes.length ∧ ls.length = closes.length then
      match runRange cfg hs ls closes with
      | .ok bd =>
        ([("wide_range", ⟨bd.1, some (.range bd.2), none⟩)],
          if bd.1 then ["wide_range"] else [])
      | .error e => ([("wide_range", ⟨false, none, some e⟩)], [])
    else ([], [])
  | _, _ => ([], [])

/-- Source `MarketStateDetector.analyze(closes, highs, lows, opens)`: hard-fails only
on the top-level minimum-data-points check (and on the configuration read
feeding it, which sits outside every `try`); each detector block is
failure-isolated. -/
noncomputable def analyze (cfg : Sections) (closes : List ℚ)
    (highs lows opens : Option (List ℚ)) : Except Err AnalysisResult :=
  match Config.get cfg "general" "min_data_points" with
  | .error e => .error e
  | .ok min_points =>
    if (closes.length : ℚ) < min_points then .error .insufficientData
    else
      let vp := volPart cfg closes
      let gp := gapPart cfg closes opens
      let rp := rangePart cfg closes highs lows
      let signals := vp.1 ++ gp.1 ++ rp.1
      let flags := vp.2 ++ gp.2 ++ rp.2
      let stage_1_detected := !flags.isEmpty
      let summary :=
        if stage_1_detected then
          "HIGH UNCERTAINTY DETECTED - Stage 1 regime likely. Signals: " ++
            String.intercalate ", " flags ++
            ". Consider avoiding new positions until conditions stabilize."
        else
          "No Stage 1 signals detected. Market behavior appears within normal parameters."
      .ok { stage_1_detected := stage_1_detected
            signals := signals
            flags := flags
            summary := summary }

/-- OHLC data for one benchmark, as returned by a data fetcher. -/
structure BenchData where
  closes : List ℚ
  highs : Option (List ℚ)
  lows : Option (List ℚ)
  opens : Option (List ℚ)

/-- Source `MarketContextAnalyzer.get_benchmark_data(fetcher, days)`: one fetch per
benchmark; a fetch failure records `None` for that benchmark and the others
proceed.  The fetcher is abstracted as the per-symbol fetch outcome. -/
def get_benchmark_data (fetch : String → Option BenchData)
    (benchmarks : List String) : List (String × Option BenchData) :=
  benchmarks.map (fun b => (b, fetch b))

/-- The flag list `analyze_with_context` assigns to one benchmark: `[]` when
its data is `None`, the analysis flags when `analyze` succeeds, and `[]` again
when the per-benchmark analysis raises. -/
noncomputable def benchFlagsOf (cfg : Sections) (od : Option BenchData) :
    List String :=
  match od with
  | none => []
  | some d =>
    match analyze cfg d.closes d.highs d.lows d.opens with
    | .ok r => r.flags
    | .error _ => []

/-- The `benchmark_signals` mapping `analyze_with_context` builds and hands to
`analyze_context`: every benchmark gets a (never-`None`) flag list. -/
noncomputable def benchmarkSignals (cfg : Sections)
    (benchmark_data : List (String × Option BenchData)) :
    List (String × Option (List String)) :=
  benchmark_data.map (fun p => (p.1, some (benchFlagsOf cfg p.2)))

/-! Embedding: Spec-side closed forms

These definitions restate the spec's algorithm descriptions as closed
formulas; the functional-correctness theorems relate the source-shaped
functions above to them. -/

/-- Spec: period-over-period simple returns `(p[i] - p[i-1]) / p[i-1]` over
the whole series. -/
def specReturns (prices : List ℚ) : List ℚ :=
  List.zipWith (fun a b => (b - a) / a) prices prices.tail

/-- Spec: population variance (divide by `N`, not `N - 1`). -/
def popVariance (l : List ℚ) : ℚ :=
  (l.map (fun r => (r - l.sum / l.length) ^ 2)).sum / l.length

/-- Three-list `zipWith` (for per-day OHLC formulas). -/
def zipWith3 {α β γ δ : Type} (f : α → β → γ → δ) :
    List α → List β → List γ → List δ
  | a :: as, b :: bs, c :: cs => f a b c :: zipWith3 f as bs cs
  | _, _, _ => []

/-- Spec: per-day range percentages `(high - low) / close * 100`. -/
def specRanges (highs lows closes : List ℚ) : List ℚ :=
  zipWith3 (fun h l c => (h - l) / c * 100) highs lows closes

/-- The (high, low, close) triples of a day-aligned OHLC series. -/
def dayTriples (highs lows closes : List ℚ) : List (ℚ × ℚ × ℚ) :=
  zipWith3 (fun h l c => (h, l, c)) highs lows closes

/-- A valid trading day: positive prices and `high ≥ low`. -/
def validDay (t : ℚ × ℚ × ℚ) : Prop :=
  0 < t.1 ∧ 0 < t.2.1 ∧ 0 < t.2.2 ∧ t.2.1 ≤ t.1

instance : DecidablePred validDay := fun t => by unfold validDay; infer_instance

/-- C2's success conclusion, spelled from the spec: the detector succeeds and
returns the spec's recent return, historical volatility (population standard
deviation of the last `lookback` returns excluding the most recent one),
threshold, detection verdict and spike magnitude. -/
def volClaimHolds (prices : List ℚ) (m : ℚ) (L : ℕ) : Prop :=
  let rets := specReturns prices
  let window := lastN L rets.dropLast
  let hv := Real.sqrt (popVariance window)
  let recent := rets.getLast?.getD 0
  ∃ b, detect_volatility_spike prices m L =
      .ok (b, { recent_return := recent
                historical_volatility := hv
                threshold := hv * m
                spike_magnitude :=
                  if hv * m > 0 then |(recent : ℝ)| / (hv * m) else 0 })
    ∧ (b = true ↔ hv * (m : ℝ) < |(recent : ℝ)|)

/-- C7's success conclusion, spelled from the spec: current range, average
range over the `lookback` days preceding the most recent day, threshold, and
the strict detection verdict. -/
def rangeClaimHolds (highs lows closes : List ℚ) (tp : ℚ) (L : ℕ) : Prop :=
  let ranges := specRanges highs lows closes
  let current := ranges.getLast?.getD 0
  let avg := (lastN L ranges.dropLast).sum / (L : ℚ)
  let thr := avg * (1 + tp / 100)
  ∃ b, detect_wide_range highs lows closes tp L =
      .ok (b, { current_range := current
                average_range := avg
                threshold := thr
                range_expansion := if thr > 0 then (current / thr - 1) * 100 else 0 })
    ∧ (b = true ↔ thr < current)

/-- C6's conclusion, spelled from the spec: gap percent, tie-break of a zero
gap to "down", and the inclusive detection boundary. -/
def gapClaimHolds (previous_close current_open tp : ℚ) : Prop :=
  let gp := (current_open - previous_close) / previous_close * 100
  ∃ b, detect_gap previous_close current_open tp =
      .ok (b, { gap_percent := gp
                gap_direction := if gp > 0 then "up" else "down"
                absolute_gap := current_open - previous_close })
    ∧ (b = true ↔ tp ≤ |gp|)

/-! Embedding: Computational lemmas: volatility -/

lemma returnsLoop_ok (prev : ℚ) (l : List ℚ) (hprev : 0 < prev)
    (hl : ∀ p ∈ l, 0 < p) :
    returnsLoop prev l =
      .ok (List.zipWith (fun a b => (b - a) / a) (prev :: l) l) := by
  induction l generalizing prev with
  | nil => simp [returnsLoop]
  | cons p rest ih =>
    have hp : 0 < p := hl p (by simp)
    rw [returnsLoop, if_neg (by push_neg; constructor <;> linarith)]
    rw [ih p hp (fun q hq => hl q (by simp [hq]))]
    simp [List.zipWith]

lemma calculate_daily_returns_ok (prices : List ℚ) (h2 : 2 ≤ prices.length)
    (hpos : ∀ p ∈ prices, 0 < p) :
    calculate_daily_returns prices = .ok (specReturns prices) := by
  match prices with
  | [] => simp at h2
  | [_] => simp at h2
  | p :: q :: rest =>
    show returnsLoop p (q :: rest) = _
    rw [returnsLoop_ok p (q :: rest) (hpos p (by simp))
      (fun r hr => hpos r (by simp at hr ⊢; tauto))]
    rfl

lemma calculate_volatility_ok (l : List ℚ) (h : l ≠ []) :
    calculate_volatility l = .ok (Real.sqrt ((popVariance l : ℚ) : ℝ)) := by
  unfold calculate_volatility
  rw [if_neg h]
  rfl

/-- The slice `returns[-(L+1):-1]` is the last `L` elements of the returns
with the most recent one removed. -/
lemma hist_window_eq {α : Type} (l : List α) (L : ℕ) :
    (l.drop (l.length - (L + 1))).dropLast = lastN L l.dropLast := by
  unfold lastN
  rw [List.dropLast_eq_take, List.dropLast_eq_take, List.length_drop,
    List.take_drop, List.length_take]
  have h1 : l.length - (L + 1) = min (l.length - 1) l.length - L := by
    omega
  have h2 : l.length - (L + 1) + (l.length - (l.length - (L + 1)) - 1) =
      l.length - 1 := by omega
  rw [h2, h1]

lemma specReturns_length (prices : List ℚ) :
    (specReturns prices).length = prices.length - 1 := by
  simp [specReturns]

/-- C2: for a positive close series of length at least `lookback + 1` (with a
nonempty historical window, i.e. `lookback ≥ 1` and length ≥ 3), the
volatility detector returns the spec's returns / population-standard-deviation
/ threshold / strict-comparison results; a shorter series fails with
`InsufficientData`. -/
theorem volatility_spike_spec :
    (∀ (prices : List ℚ) (m : ℚ) (L : ℕ),
        1 ≤ L → L + 1 ≤ prices.length → 3 ≤ prices.length →
        (∀ p ∈ prices, 0 < p) → volClaimHolds prices m L)
    ∧ (∀ (prices : List ℚ) (m : ℚ) (L : ℕ), prices.length < L + 1 →
        detect_volatility_spike prices m L = .error .insufficientData) := by
  constructor
  · intro prices m L hL hlen hlen3 hpos
    unfold volClaimHolds
    have hnl : ¬ prices.length < L + 1 := by omega
    have hret := calculate_daily_returns_ok prices (by omega) hpos
    have hwlen : (lastN L (specReturns prices).dropLast).length =
        min L (prices.length - 2) := by
      unfold lastN
      rw [List.length_drop, List.length_dropLast, specReturns_length]
      omega
    have hwne : lastN L (specReturns prices).dropLast ≠ [] := by
      rw [← List.length_pos, hwlen]
      omega
    simp only [detect_volatility_spike, if_neg hnl, hret]
    rw [hist_window_eq]
    simp only [calculate_volatility_ok _ hwne]
    exact ⟨_, rfl, by simp [decide_eq_true_eq]⟩
  · intro prices m L h
    unfold detect_volatility_spike
    rw [if_pos h]

/-- Witness for C2 at a concrete input. -/
theorem volatility_spike_spec_witness :
    (1 ≤ 1 ∧ 1 + 1 ≤ ([1, 1, 1] : List ℚ).length ∧
      3 ≤ ([1, 1, 1] : List ℚ).length ∧ (∀ p ∈ ([1, 1, 1] : List ℚ), 0 < p))
    ∧ volClaimHolds [1, 1, 1] 2 1 :=
  ⟨⟨by decide, by decide, by decide, by decide⟩,
    volatility_spike_spec.1 [1, 1, 1] 2 1 (by decide) (by decide) (by decide)
      (by decide)⟩

/-- C2 counterexample: at the minimal length allowed by the claim's stated
precondition (`lookback_period = 1`, two positive prices) the historical
window is empty and the code raises instead of reporting a detection
verdict. -/
theorem volatility_spike_minimal_series_counterexample :
    (∀ p ∈ ([1, 2] : List ℚ), 0 < p) ∧ 1 + 1 ≤ ([1, 2] : List ℚ).length
    ∧ detect_volatility_spike [1, 2] 2 1 = .error .insufficientData :=
  ⟨by decide, by decide, rfl⟩

/-- C6: for strictly positive prices the gap detector reports direction "up"
exactly for a positive gap (zero gap is "down") and detects on the inclusive
boundary `|gap_percent| ≥ threshold_percent`. -/
theorem gap_direction_and_boundary :
    ∀ (previous_close current_open tp : ℚ),
      0 < previous_close → 0 < current_open →
      gapClaimHolds previous_close current_open tp := by
  intro pc co tp h1 h2
  unfold gapClaimHolds detect_gap
  rw [if_neg (by push_neg; constructor <;> linarith)]
  exact ⟨_, rfl, by simp [decide_eq_true_eq]⟩

/-- Witness for C6 at a concrete input. -/
theorem gap_direction_and_boundary_witness :
    ((0 : ℚ) < 100 ∧ (0 : ℚ) < 105) ∧ gapClaimHolds 100 105 2 :=
  ⟨⟨by norm_num, by norm_num⟩,
    gap_direction_and_boundary 100 105 2 (by norm_num) (by norm_num)⟩

/-- C9: `get` hard-fails with `missingConfigKey` when the section or the key
is absent, while `get_section` is total and yields the empty mapping for an
absent section and the stored value otherwise. -/
theorem config_get_vs_get_section :
    (∀ (c : Sections) (sec key : String), c sec = none →
        Config.get c sec key = .error .missingConfigKey)
    ∧ (∀ (c : Sections) (sec key : String) (d : Dict ℚ),
        c sec = some (.dict d) → d key = none →
        Config.get c sec key = .error .missingConfigKey)
    ∧ (∀ (c : Sections) (sec : String), c sec = none →
        Config.get_section c sec = .dict emptyDict)
    ∧ (∀ (c : Sections) (sec : String) (v : SectVal), c sec = some v →
        Config.get_section c sec = v) := by
  refine ⟨?_, ?_, ?_, ?_⟩
  · intro c s k h; simp [Config.get, h]
  · intro c s k d h hk; simp [Config.get, h, hk]
  · intro c s h; simp [Config.get_section, h]
  · intro c s v h; simp [Config.get_section, h]

/-- Witness for C9 at a concrete input. -/
theorem config_get_vs_get_section_witness :
    DEFAULT_CONFIG "styles" = none
    ∧ Config.get DEFAULT_CONFIG "styles" "x" = .error .missingConfigKey
    ∧ Config.get_section DEFAULT_CONFIG "styles" = .dict emptyDict :=
  ⟨rfl, config_get_vs_get_section.1 DEFAULT_CONFIG "styles" "x" rfl,
    config_get_vs_get_section.2.2.1 DEFAULT_CONFIG "styles" rfl⟩

/-! Embedding: Computational lemmas: wide range -/

lemma zipWith3_nil_mid {α β γ δ : Type} (f : α → β → γ → δ) (as : List α)
    (cs : List γ) : zipWith3 f as [] cs = [] := by
  cases as <;> rfl

lemma zipWith3_nil_right {α β γ δ : Type} (f : α → β → γ → δ) (as : List α)
    (bs : List β) : zipWith3 f as bs [] = [] := by
  cases as <;> cases bs <;> rfl

lemma length_zipWith3 {α β γ δ : Type} (f : α → β → γ → δ) :
    ∀ (as : List α) (bs : List β) (cs : List γ),
      (zipWith3 f as bs cs).length = min as.length (min bs.length cs.length)
  | [], bs, cs => by simp [zipWith3]
  | a :: as, [], cs => by simp [zipWith3_nil_mid]
  | a :: as, b :: bs, [] => by simp [zipWith3_nil_right]
  | a :: as, b :: bs, c :: cs => by
    simp [zipWith3, length_zipWith3 f as bs cs]
    omega

lemma drop_zipWith3 {α β γ δ : Type} (f : α → β → γ → δ) :
    ∀ (n : ℕ) (as : List α) (bs : List β) (cs : List γ),
      (zipWith3 f as bs cs).drop n =
        zipWith3 f (as.drop n) (bs.drop n) (cs.drop n)
  | 0, _, _, _ => by simp
  | n + 1, [], bs, cs => by simp [zipWith3]
  | n + 1, a :: as, [], cs => by simp [zipWith3_nil_mid, zipWith3]
  | n + 1, a :: as, b :: bs, [] => by simp [zipWith3_nil_right, zipWith3]
  | n + 1, a :: as, b :: bs, c :: cs => by
    simp only [zipWith3, List.drop_succ_cons]
    exact drop_zipWith3 f n as bs cs

lemma take_zipWith3 {α β γ δ : Type} (f : α → β → γ → δ) :
    ∀ (n : ℕ) (as : List α) (bs : List β) (cs : List γ),
      (zipWith3 f as bs cs).take n =
        zipWith3 f (as.take n) (bs.take n) (cs.take n)
  | 0, _, _, _ => by simp [zipWith3]
  | n + 1, [], bs, cs => by simp [zipWith3]
  | n + 1, a :: as, [], cs => by simp [zipWith3_nil_mid, zipWith3]
  | n + 1, a :: as, b :: bs, [] => by simp [zipWith3_nil_right, zipWith3]
  | n + 1, a :: as, b :: bs, c :: cs => by
    simp only [zipWith3, List.take_succ_cons]
    rw [take_zipWith3 f n as bs cs]

lemma dropLast_zipWith3 {α β γ δ : Type} (f : α → β → γ → δ)
    (as : List α) (bs : List β) (cs : List γ)
    (h1 : as.length = bs.length) (h2 : as.length = cs.length) :
    (zipWith3 f as bs cs).dropLast =
      zipWith3 f as.dropLast bs.dropLast cs.dropLast := by
  rw [List.dropLast_eq_take, List.dropLast_eq_take, List.dropLast_eq_take,
    List.dropLast_eq_take, take_zipWith3, length_zipWith3]
  have hM : min as.length (min bs.length cs.length) = as.length := by omega
  rw [hM, ← h1, ← h2]

lemma lastN_zipWith3 {α β γ δ : Type} (f : α → β → γ → δ) (n : ℕ)
    (as : List α) (bs : List β) (cs : List γ)
    (h1 : as.length = bs.length) (h2 : as.length = cs.length) :
    lastN n (zipWith3 f as bs cs) =
      zipWith3 f (lastN n as) (lastN n bs) (lastN n cs) := by
  unfold lastN
  rw [drop_zipWith3, length_zipWith3]
  have hM : min as.length (min bs.length cs.length) = as.length := by omega
  rw [hM, ← h1, ← h2]

lemma getLast?_zipWith3 {α β γ δ : Type} (f : α → β → γ → δ) :
    ∀ (as : List α) (bs : List β) (cs : List γ) (a : α) (b : β) (c : γ),
      as.length = bs.length → as.length = cs.length →
      as.getLast? = some a → bs.getLast? = some b → cs.getLast? = some c →
      (zipWith3 f as bs cs).getLast? = some (f a b c)
  | [], _, _, a, b, c => by intro h1 h2 ha; simp at ha
  | a₀ :: as, [], _, a, b, c => by intro h1; simp at h1
  | a₀ :: as, b₀ :: bs, [], a, b, c => by intro h1 h2; simp at h2
  | [a₀], [b₀], [c₀], a, b, c => by
    intro h1 h2 ha hb hc
    simp only [List.getLast?_singleton, Option.some.injEq] at ha hb hc
    subst ha; subst hb; subst hc
    rfl
  | [a₀], b₀ :: b₁ :: bs, _, a, b, c => by
    intro h1; simp at h1
  | [a₀], [b₀], c₀ :: c₁ :: cs, a, b, c => by
    intro h1 h2; simp at h2
  | a₀ :: a₁ :: as, [b₀], _, a, b, c => by
    intro h1; simp at h1
  | a₀ :: a₁ :: as, b₀ :: b₁ :: bs, [c₀], a, b, c => by
    intro h1 h2; simp at h2
  | a₀ :: a₁ :: as, b₀ :: b₁ :: bs, c₀ :: c₁ :: cs, a, b, c => by
    intro h1 h2 ha hb hc
    rw [List.getLast?_cons_cons] at ha hb hc
    show (f a₀ b₀ c₀ :: f a₁ b₁ c₁ :: zipWith3 f as bs cs).getLast? = _
    rw [List.getLast?_cons_cons]
    exact getLast?_zipWith3 f (a₁ :: as) (b₁ :: bs) (c₁ :: cs) a b c
      (by simpa using h1) (by simpa using h2) ha hb hc

lemma rangeListLoop_ok :
    ∀ (hs ls cs : List ℚ), (∀ t ∈ dayTriples hs ls cs, validDay t) →
      rangeListLoop hs ls cs = .ok (specRanges hs ls cs)
  | [], _, _ => fun _ => rfl
  | _ :: _, [], _ => fun _ => rfl
  | _ :: _, _ :: _, [] => fun _ => rfl
  | h :: hs, l :: ls, c :: cs => by
    intro hvalid
    have hv : validDay (h, l, c) :=
      hvalid (h, l, c) (List.mem_cons_self _ _)
    obtain ⟨hh, hl, hc, hge⟩ := hv
    have htail : ∀ t ∈ dayTriples hs ls cs, validDay t := fun t ht =>
      hvalid t (List.mem_cons_of_mem _ ht)
    have hcr : calculate_range_percent h l c = .ok ((h - l) / c * 100) := by
      unfold calculate_range_percent
      rw [if_neg (by push_neg; exact ⟨hh, hl, hc⟩), if_neg (not_lt.2 hge)]
    show (match calculate_range_percent h l c with
      | .error e => (.error e : Except Err (List ℚ))
      | .ok r =>
        match rangeListLoop hs ls cs with
        | .error e => .error e
        | .ok rs => .ok (r :: rs)) = _
    rw [hcr, rangeListLoop_ok hs ls cs htail]
    rfl

lemma lastN_dayTriples (n : ℕ) (hs ls cs : List ℚ)
    (h1 : hs.length = ls.length) (h2 : hs.length = cs.length) :
    dayTriples (lastN n hs) (lastN n ls) (lastN n cs) =
      lastN n (dayTriples hs ls cs) :=
  (lastN_zipWith3 _ n hs ls cs h1 h2).symm

lemma lastN_specRanges (n : ℕ) (hs ls cs : List ℚ)
    (h1 : hs.length = ls.length) (h2 : hs.length = cs.length) :
    specRanges (lastN n hs) (lastN n ls) (lastN n cs) =
      lastN n (specRanges hs ls cs) :=
  (lastN_zipWith3 _ n hs ls cs h1 h2).symm

lemma dropLast_dayTriples (hs ls cs : List ℚ)
    (h1 : hs.length = ls.length) (h2 : hs.length = cs.length) :
    dayTriples hs.dropLast ls.dropLast cs.dropLast =
      (dayTriples hs ls cs).dropLast :=
  (dropLast_zipWith3 _ hs ls cs h1 h2).symm

lemma dropLast_specRanges (hs ls cs : List ℚ)
    (h1 : hs.length = ls.length) (h2 : hs.length = cs.length) :
    specRanges hs.dropLast ls.dropLast cs.dropLast =
      (specRanges hs ls cs).dropLast :=
  (dropLast_zipWith3 _ hs ls cs h1 h2).symm

lemma specRanges_length (hs ls cs : List ℚ) :
    (specRanges hs ls cs).length = min hs.length (min ls.length cs.length) :=
  length_zipWith3 _ hs ls cs

lemma calculate_average_range_ok (hs ls cs : List ℚ) (L : ℕ)
    (h1 : hs.length = ls.length) (h2 : hs.length = cs.length)
    (hL : 1 ≤ L) (hLle : L ≤ hs.length)
    (hvalid : ∀ t ∈ dayTriples hs ls cs, validDay t) :
    calculate_average_range hs ls cs L =
      .ok ((lastN L (specRanges hs ls cs)).sum / (L : ℚ)) := by
  unfold calculate_average_range
  rw [if_neg (by push_neg; exact ⟨h1, h2⟩), if_neg (by omega)]
  have hsub : ∀ t ∈ dayTriples (lastN L hs) (lastN L ls) (lastN L cs),
      validDay t := by
    intro t ht
    rw [lastN_dayTriples L hs ls cs h1 h2] at ht
    exact hvalid t (List.drop_subset _ _ ht)
  rw [rangeListLoop_ok _ _ _ hsub]
  show (if (specRanges (lastN L hs) (lastN L ls) (lastN L cs)).length = 0
    then Except.error Err.zeroDivision
    else .ok ((specRanges (lastN L hs) (lastN L ls) (lastN L cs)).sum /
      ((specRanges (lastN L hs) (lastN L ls) (lastN L cs)).length : ℚ))) = _
  rw [lastN_specRanges L hs ls cs h1 h2]
  have hlen : (lastN L (specRanges hs ls cs)).length = L := by
    unfold lastN
    rw [List.length_drop, specRanges_length]
    omega
  rw [hlen, if_neg (by omega)]

/-- C7: for equal-length valid OHLC series of length at least `lookback + 1`
(with `lookback ≥ 1`), the wide-range detector returns the spec's current
range, the mean range of the `lookback` days preceding the most recent day,
the threshold `average * (1 + threshold_percent/100)`, and the strict
comparison verdict; a shorter series fails with `InsufficientData`. -/
theorem wide_range_spec :
    (∀ (highs lows closes : List ℚ) (tp : ℚ) (L : ℕ),
        highs.length = lows.length → highs.length = closes.length →
        1 ≤ L → L + 1 ≤ highs.length →
        (∀ t ∈ dayTriples highs lows closes, validDay t) →
        rangeClaimHolds highs lows closes tp L)
    ∧ (∀ (highs lows closes : List ℚ) (tp : ℚ) (L : ℕ),
        highs.length < L + 1 →
        detect_wide_range highs lows closes tp L = .error .insufficientData) := by
  constructor
  · intro hs ls cs tp L h1 h2 hL hlen hvalid
    have hne : hs ≠ [] := by
      intro h; subst h; simp at hlen
    have hnel : ls ≠ [] := by
      intro h; subst h; rw [List.length_nil] at h1; omega
    have hnec : cs ≠ [] := by
      intro h; subst h; rw [List.length_nil] at h2; omega
    have hgl := List.getLast?_eq_getLast hs hne
    have hgll := List.getLast?_eq_getLast ls hnel
    have hglc := List.getLast?_eq_getLast cs hnec
    have hmemT : (hs.getLast hne, ls.getLast hnel, cs.getLast hnec) ∈
        dayTriples hs ls cs :=
      List.mem_of_getLast?_eq_some
        (getLast?_zipWith3 _ hs ls cs _ _ _ h1 h2 hgl hgll hglc)
    obtain ⟨hh, hl, hc, hge⟩ := hvalid _ hmemT
    have hcur : (specRanges hs ls cs).getLast? =
        some ((hs.getLast hne - ls.getLast hnel) / cs.getLast hnec * 100) :=
      getLast?_zipWith3 _ hs ls cs _ _ _ h1 h2 hgl hgll hglc
    have hcr : calculate_range_percent (hs.getLast hne) (ls.getLast hnel)
        (cs.getLast hnec) =
        .ok ((hs.getLast hne - ls.getLast hnel) / cs.getLast hnec * 100) := by
      unfold calculate_range_percent
      rw [if_neg (by push_neg; exact ⟨hh, hl, hc⟩), if_neg (not_lt.2 hge)]
    have h1' : hs.dropLast.length = ls.dropLast.length := by
      rw [List.length_dropLast, List.length_dropLast, h1]
    have h2' : hs.dropLast.length = cs.dropLast.length := by
      rw [List.length_dropLast, List.length_dropLast, h2]
    have hsubv : ∀ t ∈ dayTriples hs.dropLast ls.dropLast cs.dropLast,
        validDay t := by
      intro t ht
      rw [dropLast_dayTriples hs ls cs h1 h2] at ht
      exact hvalid t (List.dropLast_subset _ ht)
    have havg := calculate_average_range_ok hs.dropLast ls.dropLast cs.dropLast
      L h1' h2' hL (by rw [List.length_dropLast]; omega) hsubv
    rw [dropLast_specRanges hs ls cs h1 h2] at havg
    simp only [rangeClaimHolds, detect_wide_range,
      if_neg (show ¬ hs.length < L + 1 by omega), hgl, hgll, hglc,
      Option.getD_some, hcr, havg, hcur]
    exact ⟨_, rfl, by simp [decide_eq_true_eq]⟩
  · intro hs ls cs tp L h
    unfold detect_wide_range
    rw [if_pos h]

/-- Witness for C7 at a concrete input. -/
theorem wide_range_spec_witness :
    (([2, 2] : List ℚ).length = ([1, 1] : List ℚ).length ∧
      ([2, 2] : List ℚ).length = ([1, 1] : List ℚ).length ∧ 1 ≤ 1 ∧
      1 + 1 ≤ ([2, 2] : List ℚ).length ∧
      (∀ t ∈ dayTriples [2, 2] [1, 1] [1, 1], validDay t))
    ∧ rangeClaimHolds [2, 2] [1, 1] [1, 1] 50 1 :=
  ⟨⟨rfl, rfl, le_refl 1, by decide, by decide⟩,
    wide_range_spec.1 [2, 2] [1, 1] [1, 1] 50 1 rfl rfl (le_refl 1)
      (by decide) (by decide)⟩

/-- C7 counterexample: with `lookback_period = 0` the claim's stated
precondition (length ≥ 1) is met on a valid one-day series, yet the code
divides by the zero-length baseline and raises instead of reporting a
verdict. -/
theorem wide_range_lookback_zero_counterexample :
    ([2] : List ℚ).length = ([1] : List ℚ).length ∧
    (∀ t ∈ dayTriples [2] [1] [1], validDay t) ∧
    0 + 1 ≤ ([2] : List ℚ).length ∧
    detect_wide_range [2] [1] [1] 50 0 = .error .zeroDivision :=
  ⟨rfl, by decide, by decide, rfl⟩

/-- C10: for every successful detector run, `spike_magnitude` and
`range_expansion` use the guarded ratio (zero when the threshold is not
positive), and a zero volatility threshold yields a non-detection exactly for
a zero recent return. -/
theorem detail_ratios_guarded :
    (∀ (prices : List ℚ) (m : ℚ) (L : ℕ) (b : Bool) (d : VolDetails),
        detect_volatility_spike prices m L = .ok (b, d) →
        (d.spike_magnitude =
            if d.threshold > 0 then |(d.recent_return : ℝ)| / d.threshold
            else 0)
        ∧ (d.threshold = 0 → (b = false ↔ d.recent_return = 0)))
    ∧ (∀ (highs lows closes : List ℚ) (tp : ℚ) (L : ℕ) (b : Bool)
        (d : RangeDetails),
        detect_wide_range highs lows closes tp L = .ok (b, d) →
        d.range_expansion =
          if d.threshold > 0 then (d.current_range / d.threshold - 1) * 100
          else 0) := by
  constructor
  · intro prices m L b d h
    simp only [detect_volatility_spike] at h
    split at h
    · simp at h
    · split at h
      · simp at h
      · split at h
        · simp at h
        · rw [Except.ok.injEq, Prod.mk.injEq] at h
          obtain ⟨hb, hd⟩ := h
          subst hb
          subst hd
          refine ⟨rfl, ?_⟩
          intro hthr
          next hist_vol _ =>
            have hthr' : hist_vol * (m : ℝ) = 0 := hthr
            rw [hthr']
            simp [decide_eq_false_iff_not, not_lt, abs_nonpos_iff]
  · intro hs ls cs tp L b d h
    simp only [detect_wide_range] at h
    split at h
    · simp at h
    · split at h
      · simp at h
      · split at h
        · simp at h
        · rw [Except.ok.injEq, Prod.mk.injEq] at h
          obtain ⟨hb, hd⟩ := h
          subst hb
          subst hd
          rfl

/-- A concrete successful volatility run (constant series, zero variance). -/
lemma volRunExample :
    detect_volatility_spike [1, 1, 1] 2 1 = .ok (false, ⟨0, 0, 0, 0⟩) := by
  have h1 : calculate_daily_returns [1, 1, 1] = .ok [0, 0] := by
    rw [calculate_daily_returns_ok [1, 1, 1] (by decide) (by decide)]
    norm_num [specReturns]
  have h3 : ((([0, 0] : List ℚ).drop (([0, 0] : List ℚ).length - (1 + 1))).dropLast) =
      [(0 : ℚ)] := by decide
  have h2 : calculate_volatility [(0 : ℚ)] = .ok 0 := by
    unfold calculate_volatility
    rw [if_neg (by simp)]
    norm_num [Real.sqrt_zero]
  simp only [detect_volatility_spike, h1, h3, h2]
  rw [show (([0, 0] : List ℚ).getLast?.getD 0) = 0 by decide]
  rw [show (decide (|((0 : ℚ) : ℝ)| > (0 : ℝ) * ((2 : ℚ) : ℝ))) = false from
    decide_eq_false (by norm_num)]
  norm_num

/-- A concrete successful wide-range run. -/
lemma rangeRunExample :
    detect_wide_range [2, 2] [1, 1] [1, 1] 50 1 =
      .ok (false, ⟨100, 100, 150, -100 / 3⟩) := by
  have hcr : calculate_range_percent 2 1 1 = .ok 100 := by
    unfold calculate_range_percent
    rw [if_neg (by norm_num), if_neg (by norm_num)]
    norm_num
  have hloop : rangeListLoop [2] [1] [1] = .ok [100] := by
    show (match calculate_range_percent 2 1 1 with
      | .error e => (.error e : Except Err (List ℚ))
      | .ok r =>
        match rangeListLoop [] [] [] with
        | .error e => .error e
        | .ok rs => .ok (r :: rs)) = _
    rw [hcr]
    rfl
  have havg : calculate_average_range [2] [1] [1] 1 = .ok 100 := by
    unfold calculate_average_range
    rw [if_neg (by norm_num), if_neg (by norm_num)]
    rw [show lastN 1 [(2 : ℚ)] = [2] from rfl, show lastN 1 [(1 : ℚ)] = [1] from rfl,
      hloop]
    norm_num
  simp only [detect_wide_range]
  rw [if_neg (by norm_num)]
  rw [show (([2, 2] : List ℚ).getLast?.getD 0) = 2 by decide,
    show (([1, 1] : List ℚ).getLast?.getD 0) = 1 by decide]
  rw [hcr]
  rw [show ([2, 2] : List ℚ).dropLast = [2] from rfl,
    show ([1, 1] : List ℚ).dropLast = [1] from rfl, havg]
  norm_num [Except.ok.injEq, Prod.mk.injEq, RangeDetails.mk.injEq,
    decide_eq_false_iff_not]

/-- Witness for C10 at the two concrete runs above. -/
theorem detail_ratios_guarded_witness :
    ((VolDetails.mk 0 0 0 0).spike_magnitude =
        (if (VolDetails.mk 0 0 0 0).threshold > 0
          then |((VolDetails.mk 0 0 0 0).recent_return : ℝ)| /
            (VolDetails.mk 0 0 0 0).threshold
          else 0)
      ∧ ((VolDetails.mk 0 0 0 0).threshold = 0 →
          (false = false ↔ (VolDetails.mk 0 0 0 0).recent_return = 0)))
    ∧ (RangeDetails.mk 100 100 150 (-100 / 3)).range_expansion =
        (if (RangeDetails.mk 100 100 150 (-100 / 3)).threshold > 0
          then ((RangeDetails.mk 100 100 150 (-100 / 3)).current_range /
            (RangeDetails.mk 100 100 150 (-100 / 3)).threshold - 1) * 100
          else 0) :=
  ⟨detail_ratios_guarded.1 [1, 1, 1] 2 1 false ⟨0, 0, 0, 0⟩ volRunExample,
    detail_ratios_guarded.2 [2, 2] [1, 1] [1, 1] 50 1 false
      ⟨100, 100, 150, -100 / 3⟩ rangeRunExample⟩

/-! Embedding: Classifier lemmas and claims -/

lemma affected_le_total (bs : List (String × Option (List String))) :
    (affectedBenchmarks bs).length ≤ totalBenchmarks bs := by
  unfold affectedBenchmarks totalBenchmarks
  rw [List.length_map, ← List.countP_eq_length_filter,
    ← List.countP_eq_length_filter]
  apply List.countP_mono_left
  intro x _ hx
  cases hv : x.2 with
  | none => rw [hv] at hx; simp [truthy] at hx
  | some l => simp [hv]

/-- C4: the classifier's four rules (normal / stock-specific / broad-market /
sector) with the correlation score `affected / total` over non-null
benchmark entries. -/
theorem classifier_rules :
    (∀ (sym : String) (bs : List (String × Option (List String))),
        analyze_context sym [] bs =
          { context_type := "normal", benchmarks_affected := [],
            correlation_score := 0,
            description := "No uncertainty signals detected" })
    ∧ (∀ (sym : String) (ss : List String)
        (bs : List (String × Option (List String))),
        ss ≠ [] → (affectedBenchmarks bs).length = 0 →
        (analyze_context sym ss bs).context_type = "stock_specific" ∧
        (analyze_context sym ss bs).correlation_score = 0)
    ∧ (∀ (sym : String) (ss : List String)
        (bs : List (String × Option (List String))),
        ss ≠ [] → 2 ≤ (affectedBenchmarks bs).length →
        (analyze_context sym ss bs).context_type = "broad_market" ∧
        (analyze_context sym ss bs).correlation_score =
          ((affectedBenchmarks bs).length : ℚ) / (totalBenchmarks bs : ℚ))
    ∧ (∀ (sym : String) (ss : List String)
        (bs : List (String × Option (List String))),
        ss ≠ [] → (affectedBenchmarks bs).length = 1 →
        (analyze_context sym ss bs).context_type = "sector" ∧
        (analyze_context sym ss bs).correlation_score =
          1 / (totalBenchmarks bs : ℚ)) := by
  refine ⟨?_, ?_, ?_, ?_⟩
  · intro sym bs
    simp [analyze_context]
  · intro sym ss bs hne h0
    have hie : ¬ (ss.isEmpty = true) := by
      simp only [List.isEmpty_iff]; exact hne
    simp only [analyze_context]
    rw [if_neg hie, if_pos h0, h0]
    refine ⟨rfl, ?_⟩
    show (if totalBenchmarks bs > 0
      then ((0 : ℕ) : ℚ) / (totalBenchmarks bs : ℚ) else 0) = 0
    simp
  · intro sym ss bs hne h2
    have hie : ¬ (ss.isEmpty = true) := by
      simp only [List.isEmpty_iff]; exact hne
    have hat := affected_le_total bs
    simp only [analyze_context]
    rw [if_neg hie, if_neg (show ¬ (affectedBenchmarks bs).length = 0 by omega),
      if_pos h2, if_pos (show totalBenchmarks bs > 0 by omega)]
    exact ⟨rfl, rfl⟩
  · intro sym ss bs hne h1
    have hie : ¬ (ss.isEmpty = true) := by
      simp only [List.isEmpty_iff]; exact hne
    have hat := affected_le_total bs
    simp only [analyze_context]
    rw [if_neg hie, if_neg (show ¬ (affectedBenchmarks bs).length = 0 by omega),
      if_neg (show ¬ (affectedBenchmarks bs).length ≥ 2 by omega),
      if_pos (show totalBenchmarks bs > 0 by omega), h1]
    split_ifs <;> simp

/-- Witness for C4 at a concrete input (exactly one affected benchmark). -/
theorem classifier_rules_witness :
    ((["volatility_spike"] : List String) ≠ [] ∧
      (affectedBenchmarks
        [("SPY", some ["volatility_spike"]), ("QQQ", some []),
          ("DIA", none)]).length = 1)
    ∧ (analyze_context "AAPL" ["volatility_spike"]
        [("SPY", some ["volatility_spike"]), ("QQQ", some []),
          ("DIA", none)]).context_type = "sector"
    ∧ (analyze_context "AAPL" ["volatility_spike"]
        [("SPY", some ["volatility_spike"]), ("QQQ", some []),
          ("DIA", none)]).correlation_score =
      1 / (totalBenchmarks
        [("SPY", some ["volatility_spike"]), ("QQQ", some []),
          ("DIA", none)] : ℚ) :=
  ⟨⟨by decide, by decide⟩,
    classifier_rules.2.2.2 "AAPL" ["volatility_spike"]
      [("SPY", some ["volatility_spike"]), ("QQQ", some []), ("DIA", none)]
      (by decide) (by decide)⟩

/-! Embedding: analyze_with_context benchmark handling (C5) -/

lemma lookupKey_map_self {β : Type} (F : String → β) :
    ∀ (l : List String) (b : String), b ∈ l →
      lookupKey b (l.map (fun s => (s, F s))) = some (F b)
  | [], b => by intro h; simp at h
  | a :: rest, b => by
    intro h
    show (if a = b then some (F a) else lookupKey b (rest.map _)) = some (F b)
    by_cases hab : a = b
    · subst hab; rw [if_pos rfl]
    · rw [if_neg hab]
      rcases List.mem_cons.1 h with h1 | h2
      · exact absurd h1.symm hab
      · exact lookupKey_map_self F rest b h2

lemma totalBenchmarks_map_some (F : String → List String) (l : List String) :
    totalBenchmarks (l.map (fun s => (s, some (F s)))) = l.length := by
  unfold totalBenchmarks
  rw [List.filter_eq_self.2 (by
    intro x hx
    obtain ⟨s, _, rfl⟩ := List.mem_map.1 hx
    rfl)]
  rw [List.length_map]

/-- C5: a benchmark whose fetch failed (`None` data) or whose per-benchmark
analysis raised gets the entry `[]` (not null) in `benchmark_signals`, so it
counts in the correlation denominator and never as affected. -/
theorem benchmark_failure_counted_not_affected (cfg : Sections)
    (fetch : String → Option BenchData) (benchmarks : List String) (b : String)
    (hmem : b ∈ benchmarks)
    (hfail : fetch b = none ∨ ∃ d e, fetch b = some d ∧
        analyze cfg d.closes d.highs d.lows d.opens = .error e) :
    lookupKey b (benchmarkSignals cfg (get_benchmark_data fetch benchmarks)) =
      some (some [])
    ∧ totalBenchmarks
        (benchmarkSignals cfg (get_benchmark_data fetch benchmarks)) =
      benchmarks.length
    ∧ b ∉ affectedBenchmarks
        (benchmarkSignals cfg (get_benchmark_data fetch benchmarks)) := by
  have hflat : benchmarkSignals cfg (get_benchmark_data fetch benchmarks) =
      benchmarks.map (fun s => (s, some (benchFlagsOf cfg (fetch s)))) := by
    unfold benchmarkSignals get_benchmark_data
    rw [List.map_map]
    rfl
  have hfb : benchFlagsOf cfg (fetch b) = [] := by
    rcases hfail with hnone | ⟨d, e, hd, he⟩
    · rw [hnone]; rfl
    · rw [hd]
      simp [benchFlagsOf, he]
  refine ⟨?_, ?_, ?_⟩
  · rw [hflat, lookupKey_map_self _ benchmarks b hmem, hfb]
  · rw [hflat, totalBenchmarks_map_some]
  · rw [hflat]
    intro hbm
    unfold affectedBenchmarks at hbm
    obtain ⟨⟨k, v⟩, hmemf, hk⟩ := List.mem_map.1 hbm
    obtain ⟨hment, htr⟩ := List.mem_filter.1 hmemf
    obtain ⟨s, _, heq⟩ := List.mem_map.1 hment
    obtain ⟨hs, hv⟩ := Prod.mk.injEq .. ▸ heq
    simp only at hk
    subst hk
    rw [← hv, hs, hfb] at htr
    simp [truthy] at htr

/-- Witness for C5 at a concrete input (single benchmark, failing fetch). -/
theorem benchmark_failure_counted_not_affected_witness :
    ("SPY" ∈ (["SPY"] : List String) ∧
      (fun (_ : String) => (none : Option BenchData)) "SPY" = none)
    ∧ lookupKey "SPY" (benchmarkSignals DEFAULT_CONFIG
        (get_benchmark_data (fun _ => none) ["SPY"])) = some (some [])
    ∧ totalBenchmarks (benchmarkSignals DEFAULT_CONFIG
        (get_benchmark_data (fun _ => none) ["SPY"])) =
      (["SPY"] : List String).length
    ∧ "SPY" ∉ affectedBenchmarks (benchmarkSignals DEFAULT_CONFIG
        (get_benchmark_data (fun _ => none) ["SPY"])) :=
  ⟨⟨by decide, rfl⟩,
    benchmark_failure_counted_not_affected DEFAULT_CONFIG (fun _ => none)
      ["SPY"] "SPY" (by decide) (Or.inl rfl)⟩

/-! Embedding: Orchestrator lemmas and claims (C1, C3) -/

/-- Detection flag of a signal key in the signals mapping (false when the key
is absent). -/
def detectedIn (sigs : List (String × SignalResult)) (n : String) : Bool :=
  match lookupKey n sigs with
  | some s => s.detected
  | none => false

lemma volPart_shape (cfg : Sections) (closes : List ℚ) :
    ∃ s : SignalResult, volPart cfg closes =
      ([("volatility_spike", s)],
        if s.detected then ["volatility_spike"] else []) := by
  unfold volPart
  cases hr : runVolatility cfg closes with
  | ok bd => exact ⟨⟨bd.1, some (.vol bd.2), none⟩, rfl⟩
  | error e => exact ⟨⟨false, none, some e⟩, rfl⟩

lemma volPart_error (cfg : Sections) (closes : List ℚ) (e : Err)
    (he : runVolatility cfg closes = .error e) :
    volPart cfg closes = ([("volatility_spike", ⟨false, none, some e⟩)], []) := by
  unfold volPart
  rw [he]

lemma gapPart_none (cfg : Sections) (closes : List ℚ) :
    gapPart cfg closes none = ([], []) := rfl

lemma gapPart_mismatch (cfg : Sections) (closes os : List ℚ)
    (h : os.length ≠ closes.length) :
    gapPart cfg closes (some os) = ([], []) := by
  simp only [gapPart]
  rw [if_neg h]

lemma gapPart_run (cfg : Sections) (closes os : List ℚ)
    (h : os.length = closes.length) :
    ∃ s : SignalResult, gapPart cfg closes (some os) =
      ([("price_gap", s)], if s.detected then ["price_gap"] else []) := by
  simp only [gapPart]
  rw [if_pos h]
  cases hr : runGap cfg closes os with
  | ok bd => exact ⟨⟨bd.1, some (.gap bd.2), none⟩, rfl⟩
  | error e => exact ⟨⟨false, none, some e⟩, rfl⟩

lemma gapPart_error (cfg : Sections) (closes os : List ℚ) (e : Err)
    (h : os.length = closes.length) (he : runGap cfg closes os = .error e) :
    gapPart cfg closes (some os) =
      ([("price_gap", ⟨false, none, some e⟩)], []) := by
  simp only [gapPart]
  rw [if_pos h, he]

lemma rangePart_none_highs (cfg : Sections) (closes : List ℚ)
    (lows : Option (List ℚ)) :
    rangePart cfg closes none lows = ([], []) := by
  simp only [rangePart]

lemma rangePart_none_lows (cfg : Sections) (closes : List ℚ)
    (highs : Option (List ℚ)) :
    rangePart cfg closes highs none = ([], []) := by
  cases highs <;> simp only [rangePart]

lemma rangePart_mismatch (cfg : Sections) (closes hs ls : List ℚ)
    (h : ¬ (hs.length = closes.length ∧ ls.length = closes.length)) :
    rangePart cfg closes (some hs) (some ls) = ([], []) := by
  simp only [rangePart]
  rw [if_neg h]

lemma rangePart_run (cfg : Sections) (closes hs ls : List ℚ)
    (h : hs.length = closes.length ∧ ls.length = closes.length) :
    ∃ s : SignalResult, rangePart cfg closes (some hs) (some ls) =
      ([("wide_range", s)], if s.detected then ["wide_range"] else []) := by
  simp only [rangePart]
  rw [if_pos h]
  cases hr : runRange cfg hs ls closes with
  | ok bd => exact ⟨⟨bd.1, some (.range bd.2), none⟩, rfl⟩
  | error e => exact ⟨⟨false, none, some e⟩, rfl⟩

lemma rangePart_error (cfg : Sections) (closes hs ls : List ℚ) (e : Err)
    (h : hs.length = closes.length ∧ ls.length = closes.length)
    (he : runRange cfg hs ls closes = .error e) :
    rangePart cfg closes (some hs) (some ls) =
      ([("wide_range", ⟨false, none, some e⟩)], []) := by
  simp only [rangePart]
  rw [if_pos h, he]

lemma analyze_ok (cfg : Sections) (closes : List ℚ)
    (highs lows opens : Option (List ℚ)) (mp : ℚ)
    (hm : Config.get cfg "general" "min_data_points" = .ok mp)
    (hlen : ¬ ((closes.length : ℚ) < mp)) :
    ∃ smry, analyze cfg closes highs lows opens = .ok
      { stage_1_detected := !((volPart cfg closes).2 ++
          (gapPart cfg closes opens).2 ++
          (rangePart cfg closes highs lows).2).isEmpty
        signals := (volPart cfg closes).1 ++ (gapPart cfg closes opens).1 ++
          (rangePart cfg closes highs lows).1
        flags := (volPart cfg closes).2 ++ (gapPart cfg closes opens).2 ++
          (rangePart cfg closes highs lows).2
        summary := smry } := by
  simp only [analyze, hm]
  rw [if_neg hlen]
  exact ⟨_, rfl⟩

/-- C3: once the top-level minimum-data-points check passes, `analyze` always
succeeds, and a failing detector is recorded as `detected: false` with its
error under that signal's key. -/
theorem analyze_isolates_failures (cfg : Sections) (closes : List ℚ)
    (highs lows opens : Option (List ℚ)) (mp : ℚ)
    (hm : Config.get cfg "general" "min_data_points" = .ok mp)
    (hlen : ¬ ((closes.length : ℚ) < mp)) :
    (∃ r, analyze cfg closes highs lows opens = .ok r)
    ∧ (∀ e, runVolatility cfg closes = .error e →
        ∃ r, analyze cfg closes highs lows opens = .ok r ∧
          lookupKey "volatility_spike" r.signals =
            some ⟨false, none, some e⟩)
    ∧ (∀ (os : List ℚ) (e : Err), opens = some os →
        os.length = closes.length → runGap cfg closes os = .error e →
        ∃ r, analyze cfg closes highs lows opens = .ok r ∧
          lookupKey "price_gap" r.signals = some ⟨false, none, some e⟩)
    ∧ (∀ (hs ls : List ℚ) (e : Err), highs = some hs → lows = some ls →
        hs.length = closes.length → ls.length = closes.length →
        runRange cfg hs ls closes = .error e →
        ∃ r, analyze cfg closes highs lows opens = .ok r ∧
          lookupKey "wide_range" r.signals = some ⟨false, none, some e⟩) := by
  obtain ⟨smry, hok⟩ := analyze_ok cfg closes highs lows opens mp hm hlen
  refine ⟨⟨_, hok⟩, ?_, ?_, ?_⟩
  · intro e he
    refine ⟨_, hok, ?_⟩
    show lookupKey "volatility_spike" ((volPart cfg closes).1 ++
      (gapPart cfg closes opens).1 ++ (rangePart cfg closes highs lows).1) = _
    rw [volPart_error cfg closes e he]
    simp [lookupKey]
  · intro os e hos hoe he
    subst hos
    refine ⟨_, hok, ?_⟩
    show lookupKey "price_gap" ((volPart cfg closes).1 ++
      (gapPart cfg closes (some os)).1 ++
      (rangePart cfg closes highs lows).1) = _
    obtain ⟨sv, hv⟩ := volPart_shape cfg closes
    rw [hv, gapPart_error cfg closes os e hoe he]
    simp [lookupKey]
  · intro hs ls e hhs hls hhe hle he
    subst hhs
    subst hls
    refine ⟨_, hok, ?_⟩
    show lookupKey "wide_range" ((volPart cfg closes).1 ++
      (gapPart cfg closes opens).1 ++
      (rangePart cfg closes (some hs) (some ls)).1) = _
    obtain ⟨sv, hv⟩ := volPart_shape cfg closes
    rw [hv, rangePart_error cfg closes hs ls e ⟨hhe, hle⟩ he]
    rcases opens with _ | os
    · rw [gapPart_none]
      simp [lookupKey]
    · by_cases hoe : os.length = closes.length
      · obtain ⟨sg, hg⟩ := gapPart_run cfg closes os hoe
        rw [hg]
        simp [lookupKey]
      · rw [gapPart_mismatch cfg closes os hoe]
        simp [lookupKey]

/-- A small concrete configuration used by the orchestrator witnesses:
minimum one data point, volatility lookback 5, gap threshold 2 percent. -/
def cfgW : Sections :=
  table [
    ("general", .dict (table [("min_data_points", 1)])),
    ("volatility", .dict (table [("threshold_multiplier", 2),
      ("lookback_period", 5)])),
    ("gaps", .dict (table [("threshold_percent", 2)]))]

/-- On a 2-point series the witness configuration's volatility detector fails
its own length precondition (soft failure inside `analyze`). -/
lemma runVolatility_cfgW_fails :
    runVolatility cfgW [1, 1] = .error .insufficientData := rfl

/-- Witness for C3 at a concrete input. -/
theorem analyze_isolates_failures_witness :
    Config.get cfgW "general" "min_data_points" = .ok 1
    ∧ ¬ ((([1, 1] : List ℚ).length : ℚ) < 1)
    ∧ runVolatility cfgW [1, 1] = .error .insufficientData
    ∧ (∃ r, analyze cfgW [1, 1] none none none = .ok r ∧
        lookupKey "volatility_spike" r.signals =
          some ⟨false, none, some .insufficientData⟩) :=
  ⟨rfl, by norm_num, runVolatility_cfgW_fails,
    (analyze_isolates_failures cfgW [1, 1] none none none 1 rfl
      (by norm_num)).2.1 .insufficientData runVolatility_cfgW_fails⟩

/-- C1: every successful `analyze` run satisfies
`stage_1_detected = (flags nonempty)`, `flags` is exactly the detected signal
names in the fixed order volatility / gap / range, and the `price_gap` /
`wide_range` keys exist in `signals` exactly when their optional series were
supplied with length equal to the close series. -/
theorem analyze_flags_and_gating (cfg : Sections) (closes : List ℚ)
    (highs lows opens : Option (List ℚ)) (r : AnalysisResult)
    (h : analyze cfg closes highs lows opens = .ok r) :
    r.stage_1_detected = !r.flags.isEmpty
    ∧ r.flags = ["volatility_spike", "price_gap", "wide_range"].filter
        (detectedIn r.signals)
    ∧ ((lookupKey "price_gap" r.signals).isSome = true ↔
        ∃ os, opens = some os ∧ os.length = closes.length)
    ∧ ((lookupKey "wide_range" r.signals).isSome = true ↔
        ∃ hs ls, highs = some hs ∧ lows = some ls ∧
          hs.length = closes.length ∧ ls.length = closes.length) := by
  cases hg : Config.get cfg "general" "min_data_points" with
  | error e =>
    simp only [analyze, hg] at h
    exact absurd h (by simp)
  | ok mp =>
    by_cases hl : ((closes.length : ℚ) < mp)
    · simp only [analyze, hg, if_pos hl] at h
      exact absurd h (by simp)
    · obtain ⟨smry, hok⟩ := analyze_ok cfg closes highs lows opens mp hg hl
      rw [hok, Except.ok.injEq] at h
      subst h
      obtain ⟨sv, hv⟩ := volPart_shape cfg closes
      have hgapd : ((∃ sg, gapPart cfg closes opens =
            ([("price_gap", sg)], if sg.detected then ["price_gap"] else []))
            ∧ (∃ os, opens = some os ∧ os.length = closes.length))
          ∨ (gapPart cfg closes opens = ([], [])
            ∧ ¬ ∃ os, opens = some os ∧ os.length = closes.length) := by
        rcases opens with _ | os
        · exact Or.inr ⟨gapPart_none _ _, by simp⟩
        · by_cases hoe : os.length = closes.length
          · exact Or.inl ⟨gapPart_run cfg closes os hoe, ⟨os, rfl, hoe⟩⟩
          · exact Or.inr ⟨gapPart_mismatch cfg closes os hoe, by simp [hoe]⟩
      have hranged : ((∃ sr, rangePart cfg closes highs lows =
            ([("wide_range", sr)], if sr.detected then ["wide_range"] else []))
            ∧ (∃ hs ls, highs = some hs ∧ lows = some ls ∧
              hs.length = closes.length ∧ ls.length = closes.length))
          ∨ (rangePart cfg closes highs lows = ([], [])
            ∧ ¬ ∃ hs ls, highs = some hs ∧ lows = some ls ∧
              hs.length = closes.length ∧ ls.length = closes.length) := by
        rcases highs with _ | hs
        · exact Or.inr ⟨rangePart_none_highs _ _ _, by simp⟩
        · rcases lows with _ | ls
          · exact Or.inr ⟨rangePart_none_lows _ _ _, by simp⟩
          · by_cases hrg : hs.length = closes.length ∧ ls.length = closes.length
            · exact Or.inl ⟨rangePart_run cfg closes hs ls hrg,
                ⟨hs, ls, rfl, rfl, hrg.1, hrg.2⟩⟩
            · refine Or.inr ⟨rangePart_mismatch cfg closes hs ls hrg, ?_⟩
              simp only [Option.some.injEq, not_exists]
              intro hs' ls' ⟨hh', hl', h1', h2'⟩
              exact hrg ⟨hh' ▸ h1', hl' ▸ h2'⟩
      rcases hgapd with ⟨⟨sg, hg1⟩, hgate⟩ | ⟨hg1, hgate⟩ <;>
        rcases hranged with ⟨⟨sr, hr1⟩, hrgate⟩ | ⟨hr1, hrgate⟩ <;>
        refine ⟨rfl, ?_, ?_, ?_⟩
      · cases hsv : sv.detected <;> cases hsg : sg.detected <;>
          cases hsr : sr.detected <;>
          simp [hv, hg1, hr1, hsv, hsg, hsr, detectedIn, lookupKey]
      · simp [hv, hg1, hr1, lookupKey, hgate]
      · simp [hv, hg1, hr1, lookupKey]
        obtain ⟨hs', ls', hh', hl', h1', h2'⟩ := hrgate
        exact ⟨hs', hh', ls', hl', h1', h2'⟩
      · cases hsv : sv.detected <;> cases hsg : sg.detected <;>
          simp [hv, hg1, hr1, hsv, hsg, detectedIn, lookupKey]
      · simp [hv, hg1, hr1, lookupKey, hgate]
      · simp [hv, hg1, hr1, lookupKey]
        intro x hx y hy h1' h2'
        exact hrgate ⟨x, y, hx, hy, h1', h2'⟩
      · cases hsv : sv.detected <;> cases hsr : sr.detected <;>
          simp [hv, hg1, hr1, hsv, hsr, detectedIn, lookupKey]
      · simp [hv, hg1, hr1, lookupKey, hgate]
      · simp [hv, hg1, hr1, lookupKey]
        obtain ⟨hs', ls', hh', hl', h1', h2'⟩ := hrgate
        exact ⟨hs', hh', ls', hl', h1', h2'⟩
      · cases hsv : sv.detected <;>
          simp [hv, hg1, hr1, hsv, detectedIn, lookupKey]
      · simp [hv, hg1, hr1, lookupKey, hgate]
      · simp [hv, hg1, hr1, lookupKey]
        intro x hx y hy h1' h2'
        exact hrgate ⟨x, y, hx, hy, h1', h2'⟩

/-- The analysis result of the C1 witness run (volatility soft-failure only,
no optional series supplied). -/
def rW : AnalysisResult :=
  { stage_1_detected := false
    signals := [("volatility_spike", ⟨false, none, some .insufficientData⟩)]
    flags := []
    summary := "No Stage 1 signals detected. Market behavior appears within normal parameters." }

/-- Witness for C1 at a concrete successful `analyze` run. -/
theorem analyze_flags_and_gating_witness :
    analyze cfgW [1, 1] none none none = .ok rW
    ∧ (rW.stage_1_detected = !rW.flags.isEmpty
      ∧ rW.flags = ["volatility_spike", "price_gap", "wide_range"].filter
          (detectedIn rW.signals)
      ∧ ((lookupKey "price_gap" rW.signals).isSome = true ↔
          ∃ os, (none : Option (List ℚ)) = some os ∧
            os.length = ([1, 1] : List ℚ).length)
      ∧ ((lookupKey "wide_range" rW.signals).isSome = true ↔
          ∃ hs ls, (none : Option (List ℚ)) = some hs ∧
            (none : Option (List ℚ)) = some ls ∧
            hs.length = ([1, 1] : List ℚ).length ∧
            ls.length = ([1, 1] : List ℚ).length)) :=
  ⟨rfl, analyze_flags_and_gating cfgW [1, 1] none none none rW rfl⟩

/-! Embedding: Configuration merge lemmas and claim (C8) -/

lemma updateKey_self (c : Sections) (sec : String) (v : SectVal)
    (h : c sec = some v) : updateKey c sec v = c := by
  funext s
  unfold updateKey
  split
  · next heq => subst heq; exact h.symm
  · rfl

lemma dictOverlay_self (d : Dict ℚ) : dictOverlay d d = d := by
  funext k
  unfold dictOverlay
  cases hd : d k <;> simp [hd]

lemma dictOverlay_overlay (e d : Dict ℚ) :
    dictOverlay (dictOverlay e d) d = dictOverlay e d := by
  funext k
  unfold dictOverlay
  cases hd : d k <;> simp [hd]

lemma applyOne_none (c : Sections) (sec : String) (v : SectVal)
    (hc : c sec = none) : applyOne c sec v = .ok (updateKey c sec v) := by
  unfold applyOne
  rw [hc]

lemma applyOne_dict_dict (c : Sections) (sec : String) (e d : Dict ℚ)
    (hc : c sec = some (.dict e)) :
    applyOne c sec (.dict d) =
      .ok (updateKey c sec (.dict (dictOverlay e d))) := by
  unfold applyOne
  rw [hc]

lemma applyOne_scalar_dict (c : Sections) (sec : String) (q : ℚ) (d : Dict ℚ)
    (hc : c sec = some (.scalar q)) :
    applyOne c sec (.dict d) = .error .typeError := by
  unfold applyOne
  rw [hc]

lemma applyOne_scalar_in (c : Sections) (sec : String) (q : ℚ) :
    applyOne c sec (.scalar q) = .ok (updateKey c sec (.scalar q)) := by
  unfold applyOne
  cases hc : c sec with
  | none => rfl
  | some e => cases e <;> rfl

lemma applyOne_preserves (c c' : Sections) (sec s : String) (v : SectVal)
    (h : applyOne c sec v = .ok c') (hne : s ≠ sec) : c' s = c s := by
  unfold applyOne at h
  split at h <;>
    first
    | (rw [Except.ok.injEq] at h
       subst h
       unfold updateKey
       rw [if_neg hne])
    | simp at h

lemma mergeConfig_preserves :
    ∀ (o : List (String × SectVal)) (c c' : Sections) (s : String),
      (∀ p ∈ o, p.1 ≠ s) → mergeConfig c o = .ok c' → c' s = c s
  | [], c, c', s => by
    intro _ h
    simp only [mergeConfig, Except.ok.injEq] at h
    rw [h]
  | (sec, v) :: rest, c, c', s => by
    intro hno h
    simp only [mergeConfig] at h
    cases ha : applyOne c sec v with
    | error e => rw [ha] at h; simp at h
    | ok c₁ =>
      rw [ha] at h
      have h1 := mergeConfig_preserves rest c₁ c' s
        (fun p hp => hno p (List.mem_cons_of_mem _ hp)) h
      rw [h1]
      exact applyOne_preserves c c₁ sec s v ha
        (fun he => hno (sec, v) (List.mem_cons_self _ _) he.symm)

lemma applyOne_again (c c₁ c₂ : Sections) (sec : String) (v : SectVal)
    (h : applyOne c sec v = .ok c₁) (h2 : c₂ sec = c₁ sec) :
    applyOne c₂ sec v = .ok c₂ := by
  rcases v with d | q
  · rcases hc : c sec with _ | e
    · rw [applyOne_none c sec _ hc, Except.ok.injEq] at h
      subst h
      have h2' : c₂ sec = some (.dict d) := by
        rw [h2]; unfold updateKey; rw [if_pos rfl]
      rw [applyOne_dict_dict c₂ sec d d h2', dictOverlay_self,
        Except.ok.injEq]
      exact updateKey_self c₂ sec (.dict d) h2'
    · rcases e with ed | eq
      · rw [applyOne_dict_dict c sec ed d hc, Except.ok.injEq] at h
        subst h
        have h2' : c₂ sec = some (.dict (dictOverlay ed d)) := by
          rw [h2]; unfold updateKey; rw [if_pos rfl]
        rw [applyOne_dict_dict c₂ sec _ d h2', dictOverlay_overlay,
          Except.ok.injEq]
        exact updateKey_self c₂ sec _ h2'
      · rw [applyOne_scalar_dict c sec eq d hc] at h
        simp at h
  · rw [applyOne_scalar_in c sec q, Except.ok.injEq] at h
    subst h
    have h2' : c₂ sec = some (.scalar q) := by
      rw [h2]; unfold updateKey; rw [if_pos rfl]
    rw [applyOne_scalar_in c₂ sec q, Except.ok.injEq]
    exact updateKey_self c₂ sec _ h2'

lemma mergeConfig_idem :
    ∀ (o : List (String × SectVal)) (c c' : Sections),
      (o.map Prod.fst).Nodup → mergeConfig c o = .ok c' →
      mergeConfig c' o = .ok c'
  | [], _, _ => by
    intro _ h
    simp only [mergeConfig, Except.ok.injEq] at h
    subst h
    rfl
  | (sec, v) :: rest, c, c' => by
    intro hnd h
    simp only [mergeConfig] at h ⊢
    cases ha : applyOne c sec v with
    | error e => rw [ha] at h; simp at h
    | ok c₁ =>
      rw [ha] at h
      have hnd' : (rest.map Prod.fst).Nodup :=
        (List.nodup_cons.1 (by simpa using hnd)).2
      have hsec_not : sec ∉ rest.map Prod.fst :=
        (List.nodup_cons.1 (by simpa using hnd)).1
      have hc's : c' sec = c₁ sec :=
        mergeConfig_preserves rest c₁ c' sec
          (fun p hp hps => hsec_not (hps ▸ List.mem_map_of_mem Prod.fst hp)) h
      rw [applyOne_again c c₁ c' sec v ha hc's]
      exact mergeConfig_idem rest c₁ c' hnd' h

/-- C8: the configuration merge is idempotent (re-applying the same override
mapping is a no-op) and partial (overriding only
`volatility.threshold_multiplier` keeps `volatility.lookback_period` and every
other section at its default). -/
theorem config_merge_idempotent_partial :
    (∀ (c : Sections) (o : List (String × SectVal)) (c' : Sections),
        (o.map Prod.fst).Nodup → mergeConfig c o = .ok c' →
        mergeConfig c' o = .ok c')
    ∧ (∀ x : ℚ, ∃ c', mergeConfig DEFAULT_CONFIG
          [("volatility", .dict (table [("threshold_multiplier", x)]))] =
            .ok c'
        ∧ Config.get c' "volatility" "threshold_multiplier" = .ok x
        ∧ Config.get c' "volatility" "lookback_period" = .ok 15
        ∧ (∀ sec, sec ≠ "volatility" → c' sec = DEFAULT_CONFIG sec)) := by
  constructor
  · intro c o c' hnd h
    exact mergeConfig_idem o c c' hnd h
  · intro x
    refine ⟨updateKey DEFAULT_CONFIG "volatility" (.dict (dictOverlay
      (table [("threshold_multiplier", 2), ("lookback_period", 15)])
      (table [("threshold_multiplier", x)]))), rfl, rfl, rfl, ?_⟩
    intro sec hne
    unfold updateKey
    rw [if_neg hne]

/-- The override and merged configuration used by the C8 witness. -/
def oW : List (String × SectVal) :=
  [("volatility", .dict (table [("threshold_multiplier", 3)]))]

/-- The configuration obtained by merging `oW` over the defaults. -/
def cW' : Sections :=
  updateKey DEFAULT_CONFIG "volatility" (.dict (dictOverlay
    (table [("threshold_multiplier", 2), ("lookback_period", 15)])
    (table [("threshold_multiplier", 3)])))

/-- Witness for C8: the concrete merge and its re-application. -/
theorem config_merge_idempotent_partial_witness :
    ((oW.map Prod.fst).Nodup ∧ mergeConfig DEFAULT_CONFIG oW = .ok cW')
    ∧ mergeConfig cW' oW = .ok cW'
    ∧ (∃ c', mergeConfig DEFAULT_CONFIG
          [("volatility", .dict (table [("threshold_multiplier", 3)]))] =
            .ok c'
        ∧ Config.get c' "volatility" "threshold_multiplier" = .ok 3
        ∧ Config.get c' "volatility" "lookback_period" = .ok 15
        ∧ (∀ sec, sec ≠ "volatility" → c' sec = DEFAULT_CONFIG sec)) :=
  ⟨⟨by simp [oW], rfl⟩,
    config_merge_idempotent_partial.1 DEFAULT_CONFIG oW cW' (by simp [oW]) rfl,
    config_merge_idempotent_partial.2 3⟩
